import Mathlib

namespace ScreenMcp

deriving instance DecidableEq for Except

/- ===================================================================
   Character-list string utilities.

   The Lean core `String` functions `splitOn`, `trim` and `replace` are
   defined by well-founded recursion and do not reduce inside the
   kernel, so the embedding works on `String.data` (the character list)
   with structurally recursive equivalents and converts back with the
   `String.mk` constructor.
   =================================================================== -/

/-- Split on a single-character separator (semantics of `str::split(sep)` /
`String.splitOn` for a one-character pattern). -/
def splitOnCharL (sep : Char) : List Char → List (List Char)
  | [] => [[]]
  | c :: rest =>
    if c = sep then [] :: splitOnCharL sep rest
    else
      match splitOnCharL sep rest with
      | h :: t => (c :: h) :: t
      | [] => [[c]]

/-- Split on the two-character separator `::` (greedy, left to right). -/
def splitOnDColon : List Char → List (List Char)
  | [] => [[]]
  | ':' :: ':' :: rest => [] :: splitOnDColon rest
  | c :: rest =>
    match splitOnDColon rest with
    | h :: t => (c :: h) :: t
    | [] => [[c]]

/-- `str::trim` on the character list. -/
def trimL (cs : List Char) : List Char :=
  ((cs.dropWhile Char.isWhitespace).reverse.dropWhile Char.isWhitespace).reverse

/- ===================================================================
   JSON values.

   Model of `serde_json::Value` restricted to the operations the worker
   performs on it: field lookup (`Value::get`), string extraction
   (`Value::as_str`), field insertion (`Map::insert` on an object), and
   presence tests.  Wire serialization (`Value::to_string`) is modelled
   as the identity embedding of the abstract value: no claim inspects
   the serialized text itself.
   =================================================================== -/

/-- Model of `serde_json::Value`. -/
inductive Json where
  | null : Json
  | jbool (b : Bool) : Json
  | num (n : Int) : Json
  | str (s : String) : Json
  | arr (elems : List Json) : Json
  | obj (fields : List (String × Json)) : Json
deriving Repr

/-- `Value::get(key)`: field lookup; `None` on every non-object. -/
def Json.getField : Json → String → Option Json
  | .obj fields, key => go fields key
  | _, _ => none
where go : List (String × Json) → String → Option Json
  | [], _ => none
  | (k, v) :: rest, key => if k = key then some v else go rest key

/-- `Value::as_str`. -/
def Json.asStr : Json → Option String
  | .str s => some s
  | _ => none

/-- `Map::insert` on a JSON object (append; the caller checked the key is absent).
On a non-object the source would panic (`as_object_mut().unwrap()`); that path is
unreachable in `handle_notify` because `get("device_id")` already succeeded, and the
model leaves non-objects unchanged. -/
def Json.objInsert : Json → String → Json → Json
  | .obj fields, key, v => .obj (fields ++ [(key, v)])
  | j, _, _ => j

/- ===================================================================
   protocol.rs — version compatibility
   =================================================================== -/

/-- `protocol::ClientVersion` (u32 fields as Nat). -/
structure ClientVersion where
  major : Nat
  minor : Nat
  component : String
deriving Repr, DecidableEq

/-- `protocol::COMPATIBILITY`: (component, min_major inclusive, max_major inclusive). -/
def COMPATIBILITY : List (String × Nat × Nat) :=
  [("android", 1, 1), ("windows", 1, 1), ("linux", 1, 1), ("mac", 1, 1),
   ("remote", 1, 1), ("sdk-ts", 1, 1), ("sdk-py", 1, 1), ("sdk-rust", 1, 1),
   ("worker", 1, 1)]

/-- The "outdated" error text built by `check_version_compatible`. -/
def outdatedMsg (v : ClientVersion) (minMajor : Nat) : String :=
  "Your " ++ v.component ++ " (v" ++ toString v.major ++ "." ++ toString v.minor ++
    ") is outdated. Please update to version " ++ toString minMajor ++ ".x or later."

/-- The "too new" error text built by `check_version_compatible`. -/
def tooNewMsg (v : ClientVersion) (maxMajor : Nat) : String :=
  "Your " ++ v.component ++ " (v" ++ toString v.major ++ "." ++ toString v.minor ++
    ") is too new for this worker. Maximum supported: " ++ toString maxMajor ++ ".x."

/-- The loop body of `check_version_compatible`, over an explicit matrix. -/
def checkVersionAux (v : ClientVersion) : List (String × Nat × Nat) → Except String Unit
  | [] => .ok ()
  | (component, minMajor, maxMajor) :: rest =>
    if component = v.component then
      if v.major < minMajor then .error (outdatedMsg v minMajor)
      else if maxMajor < v.major then .error (tooNewMsg v maxMajor)
      else .ok ()
    else checkVersionAux v rest

/-- `protocol::check_version_compatible`. -/
def check_version_compatible (v : ClientVersion) : Except String Unit :=
  checkVersionAux v COMPATIBILITY

/-- `protocol::VersionErrorMessage`. -/
structure VersionErrorMessage where
  msg_type : String
  code : String
  message : String
  update_url : String
deriving Repr, DecidableEq

/-- `ServerMessage::version_error`. -/
def versionError (code : String) (message : String) : VersionErrorMessage :=
  { msg_type := "error", code := code, message := message,
    update_url := "https://screenmcp.com/download" }

/-- Outcome of the version gate in `handle_connection` (ws.rs:294-306). -/
inductive VersionGateResult where
  | proceed : VersionGateResult
  | rejectAndClose (frame : VersionErrorMessage) : VersionGateResult
deriving Repr, DecidableEq

/-- The version-compatibility gate of `handle_connection`: if the auth frame carried
a version and it is incompatible, send `version_error(OUTDATED_CLIENT, msg)` and close;
otherwise proceed. -/
def versionGate (version : Option ClientVersion) : VersionGateResult :=
  match version with
  | none => .proceed
  | some v =>
    match check_version_compatible v with
    | .ok _ => .proceed
    | .error msg => .rejectAndClose (versionError "outdated_client" msg)

/- ===================================================================
   protocol.rs — Command; file_state.rs — in-memory state backend
   =================================================================== -/

/-- `protocol::Command` (i64 id as Int). -/
structure Command where
  id : Int
  cmd : String
  params : Option Json
deriving Repr

/-- `file_state::DeviceState` (the `AtomicI64` counter as a plain Int: all access
happens under the `devices` write lock). -/
structure DeviceState where
  pending : List Command
  last_ack : Int
  cmd_counter : Int
deriving Repr

/-- `DeviceState::new()`. -/
def DeviceState.new : DeviceState :=
  { pending := [], last_ack := 0, cmd_counter := 0 }

/-- `file_state::FileState`, with the `devices` HashMap as an association list.
The `responses` map (`store_response`) is not touched by any claim and is omitted. -/
structure FileState where
  devices : List (String × DeviceState)
deriving Repr

/-- `FileState::new()` (before any operation). -/
def FileState.empty : FileState := { devices := [] }

/-- Association-list lookup (HashMap `get`). -/
def lookupDev (d : String) : List (String × DeviceState) → Option DeviceState
  | [] => none
  | (k, v) :: rest => if k = d then some v else lookupDev d rest

/-- Association-list get-or-insert-then-apply (HashMap `entry(d).or_insert_with`
followed by applying `f` to the entry). -/
def upsertDev (d : String) (f : DeviceState → DeviceState) :
    List (String × DeviceState) → List (String × DeviceState)
  | [] => [(d, f DeviceState.new)]
  | (k, v) :: rest => if k = d then (k, f v) :: rest else (k, v) :: upsertDev d f rest

/-- Association-list modify-if-present (HashMap `get_mut`, no insertion). -/
def adjustDev (d : String) (f : DeviceState → DeviceState) :
    List (String × DeviceState) → List (String × DeviceState)
  | [] => []
  | (k, v) :: rest => if k = d then (k, f v) :: rest else (k, v) :: adjustDev d f rest

/-- HashMap `get`. -/
def FileState.getDev (st : FileState) (d : String) : Option DeviceState :=
  lookupDev d st.devices

/-- HashMap `entry(d).or_insert_with(DeviceState::new)` followed by applying `f`
to the entry. -/
def FileState.updateDev (st : FileState) (d : String) (f : DeviceState → DeviceState) :
    FileState :=
  { devices := upsertDev d f st.devices }

/-- HashMap `get_mut(d)` followed by applying `f` when present (no insertion). -/
def FileState.modifyDev (st : FileState) (d : String) (f : DeviceState → DeviceState) :
    FileState :=
  { devices := adjustDev d f st.devices }

/-- `FileState::register_connection`: insert a fresh `DeviceState` if absent. -/
def FileState.register_connection (st : FileState) (d : String) : FileState :=
  st.updateDev d id

/-- `FileState::get_last_ack`: the device's watermark, or 0 if unknown. -/
def FileState.get_last_ack (st : FileState) (d : String) : Int :=
  ((st.getDev d).map DeviceState.last_ack).getD 0

/-- `FileState::process_ack`: when the device exists, set `last_ack := ack_id`
and retain only pending commands with `id > ack_id`; otherwise do nothing. -/
def FileState.process_ack (st : FileState) (d : String) (ackId : Int) : FileState :=
  st.modifyDev d fun dev =>
    { dev with last_ack := ackId, pending := dev.pending.filter (fun c => ackId < c.id) }

/-- `FileState::process_ack` including its `Result` value: the in-memory backend
always returns `Ok(())`. -/
def FileState.process_ackR (st : FileState) (d : String) (ackId : Int) :
    Except String FileState :=
  .ok (st.process_ack d ackId)

/-- `FileState::get_pending_commands`: pending commands with `id > since_ack`,
in stored order; `[]` for an unknown device. -/
def FileState.get_pending_commands (st : FileState) (d : String) (sinceAck : Int) :
    List Command :=
  match st.getDev d with
  | some dev => dev.pending.filter (fun c => sinceAck < c.id)
  | none => []

/-- `FileState::enqueue_command`: get-or-insert the device, allocate
`id := cmd_counter + 1` (the `fetch_add(1) + 1`), warn when `|pending| ≥ 50`
(returned here as the Bool), append, return the complete record.  The in-memory
backend always returns `Ok(command)`. -/
def FileState.enqueue_command (st : FileState) (d : String) (cmd : String)
    (params : Option Json) : Command × Bool × FileState :=
  let dev := (st.getDev d).getD DeviceState.new
  let newId := dev.cmd_counter + 1
  let command : Command := { id := newId, cmd := cmd, params := params }
  let warned := 50 ≤ dev.pending.length
  (command, warned,
    st.updateDev d fun _ =>
      { pending := dev.pending ++ [command], last_ack := dev.last_ack, cmd_counter := newId })

/-- Pending queue of a device (empty if unknown). -/
def FileState.pendingOf (st : FileState) (d : String) : List Command :=
  ((st.getDev d).map DeviceState.pending).getD []

/-- Command counter of a device (0 if unknown). -/
def FileState.counterOf (st : FileState) (d : String) : Int :=
  ((st.getDev d).map DeviceState.cmd_counter).getD 0

/- ===================================================================
   Traces of state-backend operations.

   The mutating operations reachable from the session handlers are
   `register_connection`, `enqueue_command` and `process_ack`
   (`unregister_connection` is a no-op in the in-memory backend and
   `get_*` operations do not mutate).
   =================================================================== -/

/-- One mutating state-backend call. -/
inductive Op where
  | register (d : String) : Op
  | enqueue (d : String) (cmd : String) (params : Option Json) : Op
  | ack (d : String) (ackId : Int) : Op
deriving Repr

/-- Apply one operation. -/
def runOp (st : FileState) : Op → FileState
  | .register d => st.register_connection d
  | .enqueue d cmd params => (st.enqueue_command d cmd params).2.2
  | .ack d a => st.process_ack d a

/-- Apply a sequence of operations, first one first. -/
def runOps (st : FileState) : List Op → FileState
  | [] => st
  | op :: rest => runOps (runOp st op) rest

/-- A trace is ack-bounded when every `process_ack d a` it contains has
`a ≤` the current `cmd_counter` of device `d` at that point (acks refer only
to ids that were actually issued). -/
def ackBoundedB (st : FileState) : List Op → Bool
  | [] => true
  | op :: rest =>
    (match op with
     | .ack d a =>
       (match st.getDev d with
        | some dev => decide (a ≤ dev.cmd_counter)
        | none => true)
     | _ => true) && ackBoundedB (runOp st op) rest

/-- The ids assigned by a sequence of `enqueue_command` calls on one device,
in call order. -/
def enqueueIds (st : FileState) (d : String) : List (String × Option Json) → List Int
  | [] => []
  | (cmd, params) :: rest =>
    let r := st.enqueue_command d cmd params
    r.1.id :: enqueueIds r.2.2 d rest

/- ===================================================================
   ws.rs — phone connection prefix (handle_phone_connection, lines 342-376)
   =================================================================== -/

/-- `protocol::AuthOkMessage`. -/
structure AuthOkMessage where
  msg_type : String
  resume_from : Int
  phone_connected : Option Bool
deriving Repr

/-- `ServerMessage::auth_ok`. -/
def authOk (resumeFrom : Int) : AuthOkMessage :=
  { msg_type := "auth_ok", resume_from := resumeFrom, phone_connected := none }

/-- The connection prefix of `handle_phone_connection`: register the device in the
state backend, compute `resume_from = client_last_ack.max(server_ack)`, build the
`auth_ok` frame, and collect the replay list `get_pending_commands(d, client_last_ack)`.
Returns (auth_ok frame, replayed commands in order, state after registration). -/
def phoneConnect (st : FileState) (d : String) (clientLastAck : Int) :
    AuthOkMessage × List Command × FileState :=
  let st1 := st.register_connection d
  let serverAck := st1.get_last_ack d
  let resumeFrom := max clientLastAck serverAck
  (authOk resumeFrom, st1.get_pending_commands d clientLastAck, st1)

/- ===================================================================
   connections.rs — channel registry
   =================================================================== -/

/-- A bounded tokio `mpsc` channel endpoint as the registry sees it:
the queued messages and whether the receiving half has been dropped.
`register_phone`/`register_sse` create channels with capacity 64. -/
structure Chan (α : Type) where
  queue : List α
  closed : Bool
deriving Repr

/-- Capacity of every outbound channel created by the registry. -/
def chanCapacity : Nat := 64

/-- Result of an `mpsc::Sender::send(...).await` call as observable from the
caller: either it returns a Bool immediately, or it suspends until the receiver
frees capacity (tokio `send` waits when the bounded channel is full). -/
inductive SendOutcome where
  | ret (delivered : Bool) : SendOutcome
  | waits : SendOutcome
deriving Repr, DecidableEq

/-- Phone-registry lookup (`phones.get(device_id)`). -/
def lookupPhone (phones : List (String × Chan String)) (deviceId : String) :
    Option (Chan String) :=
  match phones with
  | [] => none
  | (k, v) :: rest => if k = deviceId then some v else lookupPhone rest deviceId

/-- Replace the channel stored for `deviceId` in the phone registry. -/
def setPhone (phones : List (String × Chan String)) (deviceId : String) (c : Chan String) :
    List (String × Chan String) :=
  match phones with
  | [] => []
  | (k, v) :: rest =>
    if k = deviceId then (k, c) :: rest else (k, v) :: setPhone rest deviceId c

/-- `Connections::send_to_phone`: look up the phone sender for `device_id`;
absent → `false`; `tx.send(message).await`: error (channel closed) → `false`,
capacity available → enqueue and `true`, full and open → the call suspends. -/
def sendToPhone (phones : List (String × Chan String)) (deviceId : String)
    (message : String) : SendOutcome × List (String × Chan String) :=
  match lookupPhone phones deviceId with
  | none => (.ret false, phones)
  | some ch =>
    if ch.closed then (.ret false, phones)
    else if ch.queue.length < chanCapacity then
      (.ret true, setPhone phones deviceId { ch with queue := ch.queue ++ [message] })
    else (.waits, phones)

/-- SSE registry lookup (same shape, but the model carries abstract JSON values:
serialization is the identity embedding). -/
def lookupSse (sse : List (String × Chan Json)) (deviceId : String) : Option (Chan Json) :=
  match sse with
  | [] => none
  | (k, v) :: rest => if k = deviceId then some v else lookupSse rest deviceId

/-- Replace the channel stored for `deviceId`. -/
def setSse (sse : List (String × Chan Json)) (deviceId : String) (c : Chan Json) :
    List (String × Chan Json) :=
  match sse with
  | [] => []
  | (k, v) :: rest => if k = deviceId then (k, c) :: rest else (k, v) :: setSse rest deviceId c

/-- `Connections::send_sse_event`: look up the SSE sender; absent → `false`;
`tx.try_send(event).is_ok()`: `true` and enqueue when the channel is open and has
capacity, otherwise `false` (`try_send` fails fast on Full and on Closed). -/
def sendSseEvent (sse : List (String × Chan Json)) (deviceId : String) (event : Json) :
    Bool × List (String × Chan Json) :=
  match lookupSse sse deviceId with
  | none => (false, sse)
  | some ch =>
    if ch.closed = false ∧ ch.queue.length < chanCapacity then
      (true, setSse sse deviceId { ch with queue := ch.queue ++ [event] })
    else (false, sse)

/- ===================================================================
   ws.rs — controller command processing (handle_controller_connection,
   lines 544-587)
   =================================================================== -/

/-- `UsageCheck` (lib.rs). -/
inductive UsageCheckR where
  | allowed : UsageCheckR
  | limitReached (current : Int) (limit : Int) : UsageCheckR
deriving Repr

/-- Frames the controller loop can emit back to the controller for one command. -/
inductive Frame where
  | errorFrame (error : String) : Frame
  | cmdAccepted (id : Int) : Frame
deriving Repr

/-- The error text sent on `UsageCheck::LimitReached`. -/
def limitMsg (current limit : Int) : String :=
  "Daily usage limit reached (" ++ toString current ++ "/" ++ toString limit ++
    "). Please upgrade your plan."

/-- Processing of one parsed controller command `{cmd, params?}` in
`handle_controller_connection`: on `LimitReached` send an error frame and
`continue`; on `Allowed` enqueue, send to the phone (the boolean result of
`send_to_phone` only triggers a log line and is modelled separately, claim C5),
and send `cmd_accepted{id}`.  Returns (frames sent to the controller, state
after, whether the session loop continues). -/
def controllerCommandStep (usage : UsageCheckR) (st : FileState) (targetDeviceId : String)
    (cmd : String) (params : Option Json) : List Frame × FileState × Bool :=
  match usage with
  | .limitReached current limit => ([.errorFrame (limitMsg current limit)], st, true)
  | .allowed =>
    let (command, _warned, st1) := st.enqueue_command targetDeviceId cmd params
    ([.cmdAccepted command.id], st1, true)

/- ===================================================================
   ws.rs — POST /notify (handle_notify, lines 778-865)
   =================================================================== -/

/-- An HTTP response as far as the claims observe it: status code and body. -/
structure HttpResp where
  status : Nat
  body : String
deriving Repr, DecidableEq

/-- `v.strip_prefix("Bearer ").or_else(|| v.strip_prefix("bearer "))`. -/
def bearerOf (headerValue : String) : Option String :=
  if List.isPrefixOf "Bearer ".data headerValue.data then
    some (String.mk (headerValue.data.drop 7))
  else if List.isPrefixOf "bearer ".data headerValue.data then
    some (String.mk (headerValue.data.drop 7))
  else none

/-- `id.replace('-', "")`: strip hyphens from a device id. -/
def stripHyphens (s : String) : String :=
  String.mk (s.data.filter (fun c => c != '-'))

/-- The notify-secret check passes: whenever a secret is configured, the request
carries a matching bearer token. -/
def notifyAuthOk (secret authHeader : Option String) : Prop :=
  ∀ s, secret = some s → authHeader.bind bearerOf = some s

/-- Stamp `timestamp := now` into the event when the parsed body lacks the field. -/
def stampTimestamp (parsed : Json) (now : Int) : Json :=
  if (parsed.getField "timestamp").isNone then parsed.objInsert "timestamp" (.num now)
  else parsed

/-- The body-processing part of `handle_notify` (after the secret check): parse
result `none` → 400; extract a non-empty `device_id` string field (else 400),
stripping hyphens; stamp `timestamp` when missing; `send_sse_event`;
200 on success, else 404. -/
def notifyBody (body : Option Json) (sse : List (String × Chan Json)) (now : Int) :
    HttpResp × List (String × Chan Json) :=
  match body with
  | none => (⟨400, "\x7b\"error\":\"invalid JSON body\"\x7d"⟩, sse)
  | some parsed =>
    match (parsed.getField "device_id").bind Json.asStr with
    | some rawId =>
      if rawId = "" then (⟨400, "\x7b\"error\":\"missing device_id\"\x7d"⟩, sse)
      else
        let deviceId := stripHyphens rawId
        let event := stampTimestamp parsed now
        let (sent, sse1) := sendSseEvent sse deviceId event
        if sent then (⟨200, "\x7b\"ok\":true\x7d"⟩, sse1)
        else (⟨404, "\x7b\"error\":\"device not connected\"\x7d"⟩, sse1)
    | none => (⟨400, "\x7b\"error\":\"missing device_id\"\x7d"⟩, sse)

/-- `handle_notify`: verify the notify secret when configured (else 401 and no
event sent), then process the body.  Returns (response, SSE registry after). -/
def handleNotify (secret : Option String) (authHeader : Option String)
    (body : Option Json) (sse : List (String × Chan Json)) (now : Int) :
    HttpResp × List (String × Chan Json) :=
  match secret with
  | some expected =>
    match authHeader.bind bearerOf with
    | some t =>
      if t = expected then notifyBody body sse now
      else (⟨401, "\x7b\"error\":\"unauthorized\"\x7d"⟩, sse)
    | none => (⟨401, "\x7b\"error\":\"unauthorized\"\x7d"⟩, sse)
  | none => notifyBody body sse now

/- ===================================================================
   ip_whitelist.rs — allowlist parsing and CIDR matching.

   The address parsers model `std::net` `FromStr`: IPv4 is strict
   dotted-decimal (four octets, no leading zeros, each ≤ 255); IPv6 is
   colon-separated 16-bit hex groups with at most one `::` compression
   and an optional embedded IPv4 tail.  `u8::from_str` for the prefix
   accepts an optional leading `+` and leading zeros.  Error messages
   are abridged (no claim inspects their text).
   =================================================================== -/

/-- Parse a non-empty all-decimal-digit character list. -/
def decDigits (cs : List Char) : Option Nat :=
  if cs ≠ [] ∧ cs.all Char.isDigit then
    some (cs.foldl (fun a c => a * 10 + (c.toNat - 48)) 0)
  else none

/-- One IPv4 octet: decimal, no leading zero, value ≤ 255. -/
def parseOctet (s : List Char) : Option Nat :=
  match s with
  | [] => none
  | c :: rest =>
    if c = '0' ∧ rest ≠ [] then none
    else (decDigits (c :: rest)).bind fun n => if n ≤ 255 then some n else none

/-- `Ipv4Addr::from_str`, producing the 32-bit value (`u32::from`). -/
def parseIpv4 (s : List Char) : Option Nat :=
  match splitOnCharL '.' s with
  | [a, b, c, d] => do
    let a ← parseOctet a
    let b ← parseOctet b
    let c ← parseOctet c
    let d ← parseOctet d
    pure (((a * 256 + b) * 256 + c) * 256 + d)
  | _ => none

/-- `u8::from_str` (optional leading `+`, leading zeros allowed, value ≤ 255). -/
def parseU8 (s : List Char) : Option Nat :=
  let cs := match s with
    | '+' :: rest => rest
    | cs => cs
  (decDigits cs).bind fun n => if n ≤ 255 then some n else none

/-- Value of a hex digit. -/
def hexVal (c : Char) : Option Nat :=
  if c.isDigit then some (c.toNat - 48)
  else if 'a' ≤ c ∧ c ≤ 'f' then some (c.toNat - 87)
  else if 'A' ≤ c ∧ c ≤ 'F' then some (c.toNat - 55)
  else none

/-- One IPv6 group: 1-4 hex digits. -/
def parseHexGroup (s : List Char) : Option Nat :=
  match s with
  | [] => none
  | cs =>
    if 4 < cs.length then none
    else cs.foldl (fun acc c => acc.bind fun a => (hexVal c).map fun h => a * 16 + h) (some 0)

/-- Parse a list of IPv6 groups; when `allowV4Tail` the final group may be an
embedded dotted-quad (contributing two 16-bit groups). -/
def parseGroupList (allowV4Tail : Bool) : List (List Char) → Option (List Nat)
  | [] => some []
  | [last] =>
    if allowV4Tail ∧ (splitOnCharL '.' last).length ≠ 1 then
      (parseIpv4 last).map fun n => [n / 65536, n % 65536]
    else (parseHexGroup last).map fun g => [g]
  | p :: rest => do
    let g ← parseHexGroup p
    let gs ← parseGroupList allowV4Tail rest
    pure (g :: gs)

/-- Combine 16-bit groups big-endian. -/
def combineGroups (gs : List Nat) : Nat :=
  gs.foldl (fun acc g => acc * 65536 + g) 0

/-- `Ipv6Addr::from_str`, producing the 128-bit value (`u128::from`). -/
def parseIpv6 (s : List Char) : Option Nat :=
  match splitOnDColon s with
  | [whole] => do
    let gs ← parseGroupList true (splitOnCharL ':' whole)
    if gs.length = 8 then some (combineGroups gs) else none
  | [left, right] => do
    let lgs ← parseGroupList false (if left = [] then [] else splitOnCharL ':' left)
    let rgs ← parseGroupList true (if right = [] then [] else splitOnCharL ':' right)
    if lgs.length + rgs.length ≤ 7 then
      some (combineGroups (lgs ++ List.replicate (8 - lgs.length - rgs.length) 0 ++ rgs))
    else none
  | _ => none

/-- `std::net::IpAddr` carrying its bit value. -/
inductive IpAddrM where
  | v4 (bits : Nat) : IpAddrM
  | v6 (bits : Nat) : IpAddrM
deriving Repr, DecidableEq

/-- `IpAddr::from_str`: try IPv4 first, then IPv6. -/
def parseIpAddr (s : String) : Option IpAddrM :=
  match parseIpv4 s.data with
  | some n => some (.v4 n)
  | none => (parseIpv6 s.data).map .v6

/-- `ip_whitelist::IpEntry`. -/
inductive IpEntry where
  | single (addr : IpAddrM) : IpEntry
  | cidr (addr : IpAddrM) (pfx : Nat) : IpEntry
deriving Repr, DecidableEq

/-- `IpEntry::parse`: trim; `split_once` on the first slash decides CIDR vs
single; CIDR validates the prefix (≤ 32 for v4, ≤ 128 for v6). -/
def IpEntry.parse (s : String) : Except String IpEntry :=
  let t := trimL s.data
  match splitOnCharL '/' t with
  | [sole] =>
    match parseIpAddr (String.mk sole) with
    | some addr => .ok (.single addr)
    | none => .error ("invalid IP: " ++ String.mk t)
  | first :: rest =>
    let addrStr := first
    let pfxStr := (rest.intersperse ['/']).flatten
    match parseIpAddr (String.mk addrStr) with
    | none => .error ("invalid IP in CIDR: " ++ String.mk t)
    | some addr =>
      match parseU8 pfxStr with
      | none => .error ("invalid prefix in CIDR: " ++ String.mk t)
      | some pfx =>
        let maxPfx : Nat := match addr with | .v4 _ => 32 | .v6 _ => 128
        if maxPfx < pfx then .error ("prefix too large: " ++ String.mk t)
        else .ok (.cidr addr pfx)
  | [] => .error ("invalid IP: " ++ String.mk t)

/-- `IpEntry::contains`: exact match for singles; masked prefix compare for CIDR
(`u32::MAX << (32 - prefix)` resp. `u128::MAX << (128 - prefix)`, with the
prefix-0 early return); v4/v6 mismatch never matches. -/
def IpEntry.contains (e : IpEntry) (ip : IpAddrM) : Bool :=
  match e with
  | .single addr => addr = ip
  | .cidr net pfx =>
    match net, ip with
    | .v4 netBits, .v4 checkBits =>
      if pfx = 0 then true
      else
        let mask := ((2 ^ 32 - 1) <<< (32 - pfx)) % 2 ^ 32
        Nat.land netBits mask = Nat.land checkBits mask
    | .v6 netBits, .v6 checkBits =>
      if pfx = 0 then true
      else
        let mask := ((2 ^ 128 - 1) <<< (128 - pfx)) % 2 ^ 128
        Nat.land netBits mask = Nat.land checkBits mask
    | _, _ => false

/-- `ip_whitelist::IpWhitelist`. -/
structure IpWhitelist where
  entries : List IpEntry
deriving Repr, DecidableEq

/-- `IpWhitelist::from_list`: trim each item, skip empties, drop entries whose
parse fails (warn only). -/
def IpWhitelist.from_list (items : List String) : IpWhitelist :=
  { entries := items.filterMap fun s =>
      let t := trimL s.data
      if t = [] then none else (IpEntry.parse (String.mk t)).toOption }

/-- `IpWhitelist::from_text`: split into lines, then `from_list`.  (Rust
`str::lines` differences — dropped trailing empty line, `\r` stripping — are
absorbed by the trim/skip-empty in `from_list`.) -/
def IpWhitelist.from_text (text : String) : IpWhitelist :=
  IpWhitelist.from_list ((splitOnCharL '\n' text.data).map String.mk)

/-- `IpWhitelist::check`: empty allowlist admits everything; otherwise the client
IP must parse and match some entry. -/
def IpWhitelist.check (wl : IpWhitelist) (ipAddress : String) : Except String Unit :=
  if wl.entries.isEmpty then .ok ()
  else
    match parseIpAddr ipAddress with
    | none => .error ("invalid client IP: " ++ ipAddress)
    | some ip =>
      if wl.entries.any (fun e => e.contains ip) then .ok ()
      else .error "IP not in whitelist"

/-- `protocol::AuthFailMessage`. -/
structure AuthFailMessage where
  msg_type : String
  error : String
deriving Repr, DecidableEq

/-- The IP-allowlist gate of `handle_connection` (ws.rs:270-279): build the
allowlist from the text returned with the token; on check failure send
`auth_fail` and close (`some frame`), else proceed (`none`). -/
def ipGate (whitelistText clientIp : String) : Option AuthFailMessage :=
  match (IpWhitelist.from_text whitelistText).check clientIp with
  | .ok _ => none
  | .error _ => some { msg_type := "auth_fail", error := "connection from this IP is not allowed" }

/- ===================================================================
   Invariant predicates for the in-memory state backend.
   =================================================================== -/

/-- Structural queue invariant of one device: every pending id is bounded by the
counter, and pending ids are strictly ascending (issue order). -/
def GoodDev (ds : DeviceState) : Prop :=
  (∀ c ∈ ds.pending, c.id ≤ ds.cmd_counter) ∧
    ds.pending.Pairwise (fun c1 c2 => c1.id < c2.id)

/-- Watermark invariant of one device: `last_ack ≤ cmd_counter` and every
pending id lies strictly above the watermark. -/
def AckDev (ds : DeviceState) : Prop :=
  ds.last_ack ≤ ds.cmd_counter ∧ ∀ c ∈ ds.pending, ds.last_ack < c.id

/-- `GoodDev` for every registered device. -/
def StateGood (st : FileState) : Prop :=
  ∀ d ds, st.getDev d = some ds → GoodDev ds

/-- `AckDev` for every registered device. -/
def StateAck (st : FileState) : Prop :=
  ∀ d ds, st.getDev d = some ds → AckDev ds

/- ===================================================================
   Lemmas: association-list operations.
   =================================================================== -/

theorem lookupDev_upsertDev_self (d : String) (f : DeviceState → DeviceState)
    (l : List (String × DeviceState)) :
    lookupDev d (upsertDev d f l) = some (f ((lookupDev d l).getD DeviceState.new)) := by
  induction l with
  | nil => simp [lookupDev, upsertDev]
  | cons kv rest ih =>
    obtain ⟨k, v⟩ := kv
    by_cases hk : k = d
    · subst hk
      simp [lookupDev, upsertDev]
    · simp [lookupDev, upsertDev, hk, ih]

theorem lookupDev_upsertDev_ne (d d' : String) (hne : d' ≠ d)
    (f : DeviceState → DeviceState) (l : List (String × DeviceState)) :
    lookupDev d' (upsertDev d f l) = lookupDev d' l := by
  have hdd : d ≠ d' := Ne.symm hne
  induction l with
  | nil => simp [lookupDev, upsertDev, hdd]
  | cons kv rest ih =>
    obtain ⟨k, v⟩ := kv
    by_cases hk : k = d
    · subst hk
      simp [lookupDev, upsertDev, hdd]
    · simp [lookupDev, upsertDev, hk, ih]

theorem lookupDev_adjustDev_self (d : String) (f : DeviceState → DeviceState)
    (l : List (String × DeviceState)) :
    lookupDev d (adjustDev d f l) = (lookupDev d l).map f := by
  induction l with
  | nil => simp [lookupDev, adjustDev]
  | cons kv rest ih =>
    obtain ⟨k, v⟩ := kv
    by_cases hk : k = d
    · subst hk
      simp [lookupDev, adjustDev]
    · simp [lookupDev, adjustDev, hk, ih]

theorem lookupDev_adjustDev_ne (d d' : String) (hne : d' ≠ d)
    (f : DeviceState → DeviceState) (l : List (String × DeviceState)) :
    lookupDev d' (adjustDev d f l) = lookupDev d' l := by
  have hdd : d ≠ d' := Ne.symm hne
  induction l with
  | nil => simp [adjustDev]
  | cons kv rest ih =>
    obtain ⟨k, v⟩ := kv
    by_cases hk : k = d
    · subst hk
      simp [lookupDev, adjustDev, hdd]
    · simp [lookupDev, adjustDev, hk, ih]

theorem adjustDev_absent (d : String) (f : DeviceState → DeviceState)
    (l : List (String × DeviceState)) (h : lookupDev d l = none) :
    adjustDev d f l = l := by
  induction l with
  | nil => simp [adjustDev]
  | cons kv rest ih =>
    obtain ⟨k, v⟩ := kv
    by_cases hk : k = d
    · subst hk
      simp [lookupDev] at h
    · simp [lookupDev, hk] at h
      simp [adjustDev, hk, ih h]

/- ===================================================================
   Lemmas: state-backend operations.
   =================================================================== -/

theorem getDev_updateDev_self (st : FileState) (d : String) (f : DeviceState → DeviceState) :
    (st.updateDev d f).getDev d = some (f ((st.getDev d).getD DeviceState.new)) :=
  lookupDev_upsertDev_self d f st.devices

theorem getDev_updateDev_ne (st : FileState) (d d' : String) (hne : d' ≠ d)
    (f : DeviceState → DeviceState) :
    (st.updateDev d f).getDev d' = st.getDev d' :=
  lookupDev_upsertDev_ne d d' hne f st.devices

theorem getDev_modifyDev_self (st : FileState) (d : String) (f : DeviceState → DeviceState) :
    (st.modifyDev d f).getDev d = (st.getDev d).map f :=
  lookupDev_adjustDev_self d f st.devices

theorem getDev_modifyDev_ne (st : FileState) (d d' : String) (hne : d' ≠ d)
    (f : DeviceState → DeviceState) :
    (st.modifyDev d f).getDev d' = st.getDev d' :=
  lookupDev_adjustDev_ne d d' hne f st.devices

theorem modifyDev_absent (st : FileState) (d : String) (f : DeviceState → DeviceState)
    (h : st.getDev d = none) : st.modifyDev d f = st := by
  obtain ⟨l⟩ := st
  simp only [FileState.modifyDev]
  exact congrArg FileState.mk (adjustDev_absent d f l h)

theorem getDev_register_self (st : FileState) (d : String) :
    (st.register_connection d).getDev d = some ((st.getDev d).getD DeviceState.new) := by
  simpa using getDev_updateDev_self st d id

theorem getDev_register_ne (st : FileState) (d d' : String) (hne : d' ≠ d) :
    (st.register_connection d).getDev d' = st.getDev d' :=
  getDev_updateDev_ne st d d' hne id

theorem get_last_ack_register (st : FileState) (d : String) :
    (st.register_connection d).get_last_ack d = st.get_last_ack d := by
  cases h : st.getDev d with
  | none => simp [FileState.get_last_ack, getDev_register_self, h, DeviceState.new]
  | some dev => simp [FileState.get_last_ack, getDev_register_self, h]

theorem pendingOf_register (st : FileState) (d : String) :
    (st.register_connection d).pendingOf d = st.pendingOf d := by
  cases h : st.getDev d with
  | none => simp [FileState.pendingOf, getDev_register_self, h, DeviceState.new]
  | some dev => simp [FileState.pendingOf, getDev_register_self, h]

theorem get_pending_register (st : FileState) (d : String) (sinceAck : Int) :
    (st.register_connection d).get_pending_commands d sinceAck
      = (st.pendingOf d).filter (fun c => sinceAck < c.id) := by
  cases h : st.getDev d with
  | none =>
    simp [FileState.get_pending_commands, FileState.pendingOf, getDev_register_self, h,
      DeviceState.new]
  | some dev => simp [FileState.get_pending_commands, FileState.pendingOf, getDev_register_self, h]

theorem getD_new_pending (st : FileState) (d : String) :
    ((st.getDev d).getD DeviceState.new).pending = st.pendingOf d := by
  cases h : st.getDev d <;> simp [FileState.pendingOf, h, DeviceState.new]

theorem getD_new_counter (st : FileState) (d : String) :
    ((st.getDev d).getD DeviceState.new).cmd_counter = st.counterOf d := by
  cases h : st.getDev d <;> simp [FileState.counterOf, h, DeviceState.new]

theorem getD_new_last_ack (st : FileState) (d : String) :
    ((st.getDev d).getD DeviceState.new).last_ack = st.get_last_ack d := by
  cases h : st.getDev d <;> simp [FileState.get_last_ack, h, DeviceState.new]

theorem enqueue_fst (st : FileState) (d cmd : String) (params : Option Json) :
    (st.enqueue_command d cmd params).1
      = { id := st.counterOf d + 1, cmd := cmd, params := params } := by
  simp [FileState.enqueue_command, getD_new_counter]

theorem enqueue_warned (st : FileState) (d cmd : String) (params : Option Json) :
    (st.enqueue_command d cmd params).2.1 = decide (50 ≤ (st.pendingOf d).length) := by
  simp [FileState.enqueue_command, getD_new_pending]

theorem getDev_enqueue_self (st : FileState) (d cmd : String) (params : Option Json) :
    (st.enqueue_command d cmd params).2.2.getDev d
      = some { pending := st.pendingOf d ++
                 [{ id := st.counterOf d + 1, cmd := cmd, params := params }],
               last_ack := st.get_last_ack d,
               cmd_counter := st.counterOf d + 1 } := by
  simp [FileState.enqueue_command, getDev_updateDev_self, getD_new_pending,
    getD_new_counter, getD_new_last_ack]

theorem getDev_enqueue_ne (st : FileState) (d d' cmd : String) (hne : d' ≠ d)
    (params : Option Json) :
    (st.enqueue_command d cmd params).2.2.getDev d' = st.getDev d' := by
  simp only [FileState.enqueue_command]
  exact getDev_updateDev_ne st d d' hne _

theorem pendingOf_enqueue_self (st : FileState) (d cmd : String) (params : Option Json) :
    (st.enqueue_command d cmd params).2.2.pendingOf d
      = st.pendingOf d ++ [{ id := st.counterOf d + 1, cmd := cmd, params := params }] := by
  simp [FileState.pendingOf, getDev_enqueue_self]

theorem counterOf_enqueue_self (st : FileState) (d cmd : String) (params : Option Json) :
    (st.enqueue_command d cmd params).2.2.counterOf d = st.counterOf d + 1 := by
  simp [FileState.counterOf, getDev_enqueue_self]

theorem getDev_ack_self (st : FileState) (d : String) (ackId : Int) :
    (st.process_ack d ackId).getDev d
      = (st.getDev d).map fun dev =>
          { pending := dev.pending.filter (fun c => ackId < c.id),
            last_ack := ackId, cmd_counter := dev.cmd_counter } := by
  simp [FileState.process_ack, getDev_modifyDev_self]

theorem getDev_ack_ne (st : FileState) (d d' : String) (hne : d' ≠ d) (ackId : Int) :
    (st.process_ack d ackId).getDev d' = st.getDev d' :=
  getDev_modifyDev_ne st d d' hne _

theorem process_ack_absent (st : FileState) (d : String) (ackId : Int)
    (h : st.getDev d = none) : st.process_ack d ackId = st :=
  modifyDev_absent st d _ h

/- ===================================================================
   Lemmas: invariant preservation along operation traces.
   =================================================================== -/

theorem goodDev_new : GoodDev DeviceState.new := by
  constructor <;> simp [DeviceState.new]

theorem ackDev_new : AckDev DeviceState.new := by
  constructor <;> simp [DeviceState.new]

theorem stateGood_empty : StateGood FileState.empty := by
  intro d ds h
  simp [FileState.empty, FileState.getDev, lookupDev] at h

theorem stateAck_empty : StateAck FileState.empty := by
  intro d ds h
  simp [FileState.empty, FileState.getDev, lookupDev] at h

theorem pendingOf_le_counter (st : FileState) (h : StateGood st) (d : String) :
    ∀ c ∈ st.pendingOf d, c.id ≤ st.counterOf d := by
  intro c hc
  cases hg : st.getDev d with
  | none => simp [FileState.pendingOf, hg] at hc
  | some dev =>
    simp [FileState.pendingOf, hg] at hc
    simpa [FileState.counterOf, hg] using (h d dev hg).1 c hc

theorem pendingOf_pairwise (st : FileState) (h : StateGood st) (d : String) :
    (st.pendingOf d).Pairwise (fun c1 c2 => c1.id < c2.id) := by
  cases hg : st.getDev d with
  | none => simp [FileState.pendingOf, hg]
  | some dev =>
    simpa [FileState.pendingOf, hg] using (h d dev hg).2

theorem last_ack_le_counter (st : FileState) (h : StateAck st) (d : String) :
    st.get_last_ack d ≤ st.counterOf d := by
  cases hg : st.getDev d with
  | none => simp [FileState.get_last_ack, FileState.counterOf, hg]
  | some dev =>
    simpa [FileState.get_last_ack, FileState.counterOf, hg] using (h d dev hg).1

theorem pendingOf_gt_last_ack (st : FileState) (h : StateAck st) (d : String) :
    ∀ c ∈ st.pendingOf d, st.get_last_ack d < c.id := by
  intro c hc
  cases hg : st.getDev d with
  | none => simp [FileState.pendingOf, hg] at hc
  | some dev =>
    simp [FileState.pendingOf, hg] at hc
    simpa [FileState.get_last_ack, hg] using (h d dev hg).2 c hc

theorem stateGood_register (st : FileState) (h : StateGood st) (d : String) :
    StateGood (st.register_connection d) := by
  intro d' ds hds
  by_cases hd : d' = d
  · subst hd
    rw [getDev_register_self] at hds
    cases hg : st.getDev d' with
    | none =>
      rw [hg] at hds
      simp at hds
      exact hds ▸ goodDev_new
    | some dev =>
      rw [hg] at hds
      simp at hds
      exact hds ▸ h d' dev hg
  · rw [getDev_register_ne st d d' hd] at hds
    exact h d' ds hds

theorem stateGood_enqueue (st : FileState) (h : StateGood st) (d cmd : String)
    (params : Option Json) : StateGood (st.enqueue_command d cmd params).2.2 := by
  intro d' ds hds
  by_cases hd : d' = d
  · subst hd
    rw [getDev_enqueue_self] at hds
    simp at hds
    subst hds
    constructor
    · intro c hc
      simp at hc
      rcases hc with hc | hc
      · have := pendingOf_le_counter st h d' c hc
        show c.id ≤ st.counterOf d' + 1
        omega
      · simp [hc]
    · rw [List.pairwise_append]
      refine ⟨pendingOf_pairwise st h d', by simp, ?_⟩
      intro a ha b hb
      simp at hb
      subst hb
      have := pendingOf_le_counter st h d' a ha
      simp
      omega
  · rw [getDev_enqueue_ne st d d' cmd hd] at hds
    exact h d' ds hds

theorem stateGood_ack (st : FileState) (h : StateGood st) (d : String) (a : Int) :
    StateGood (st.process_ack d a) := by
  intro d' ds hds
  by_cases hd : d' = d
  · subst hd
    rw [getDev_ack_self] at hds
    cases hg : st.getDev d' with
    | none => rw [hg] at hds; simp at hds
    | some dev =>
      rw [hg] at hds
      simp at hds
      subst hds
      obtain ⟨h1, h2⟩ := h d' dev hg
      constructor
      · intro c hc
        exact h1 c (List.mem_of_mem_filter hc)
      · exact h2.sublist (List.filter_sublist _)
  · rw [getDev_ack_ne st d d' hd] at hds
    exact h d' ds hds

theorem stateGood_runOp (st : FileState) (h : StateGood st) (op : Op) :
    StateGood (runOp st op) := by
  cases op with
  | register d => exact stateGood_register st h d
  | enqueue d cmd params => exact stateGood_enqueue st h d cmd params
  | ack d a => exact stateGood_ack st h d a

theorem stateGood_runOps (ops : List Op) :
    ∀ st : FileState, StateGood st → StateGood (runOps st ops) := by
  induction ops with
  | nil => intro st h; exact h
  | cons op rest ih => intro st h; exact ih (runOp st op) (stateGood_runOp st h op)

theorem stateAck_register (st : FileState) (h : StateAck st) (d : String) :
    StateAck (st.register_connection d) := by
  intro d' ds hds
  by_cases hd : d' = d
  · subst hd
    rw [getDev_register_self] at hds
    cases hg : st.getDev d' with
    | none =>
      rw [hg] at hds
      simp at hds
      exact hds ▸ ackDev_new
    | some dev =>
      rw [hg] at hds
      simp at hds
      exact hds ▸ h d' dev hg
  · rw [getDev_register_ne st d d' hd] at hds
    exact h d' ds hds

theorem stateAck_enqueue (st : FileState) (h : StateAck st) (d cmd : String)
    (params : Option Json) : StateAck (st.enqueue_command d cmd params).2.2 := by
  intro d' ds hds
  by_cases hd : d' = d
  · subst hd
    rw [getDev_enqueue_self] at hds
    simp at hds
    subst hds
    have hle : st.get_last_ack d' ≤ st.counterOf d' := last_ack_le_counter st h d'
    constructor
    · simp; omega
    · intro c hc
      simp at hc
      rcases hc with hc | hc
      · exact pendingOf_gt_last_ack st h d' c hc
      · simp [hc]; omega
  · rw [getDev_enqueue_ne st d d' cmd hd] at hds
    exact h d' ds hds

theorem stateAck_ack (st : FileState) (h : StateAck st) (d : String) (a : Int)
    (hbound : ∀ dev, st.getDev d = some dev → a ≤ dev.cmd_counter) :
    StateAck (st.process_ack d a) := by
  intro d' ds hds
  by_cases hd : d' = d
  · subst hd
    rw [getDev_ack_self] at hds
    cases hg : st.getDev d' with
    | none => rw [hg] at hds; simp at hds
    | some dev =>
      rw [hg] at hds
      simp at hds
      subst hds
      constructor
      · simpa using hbound dev hg
      · intro c hc
        simp only [List.mem_filter] at hc
        simpa using of_decide_eq_true hc.2
  · rw [getDev_ack_ne st d d' hd] at hds
    exact h d' ds hds

theorem stateAck_runOps (ops : List Op) :
    ∀ st : FileState, StateAck st → ackBoundedB st ops = true →
      StateAck (runOps st ops) := by
  induction ops with
  | nil => intro st h _; exact h
  | cons op rest ih =>
    intro st h hb
    cases op with
    | register d =>
      simp only [ackBoundedB, Bool.true_and] at hb
      exact ih _ (stateAck_register st h d) hb
    | enqueue d cmd params =>
      simp only [ackBoundedB, Bool.true_and] at hb
      exact ih _ (stateAck_enqueue st h d cmd params) hb
    | ack d a =>
      simp only [ackBoundedB, Bool.and_eq_true] at hb
      refine ih _ (stateAck_ack st h d a ?_) hb.2
      intro dev hdev
      have hg := hb.1
      rw [hdev] at hg
      simpa using hg

/- ===================================================================
   Claim theorems.
   =================================================================== -/

/-- C1 (amended): for a registered device, `process_ack(d, a)` sets the device's
`last_ack` to `a` unconditionally — it equals `max(last_ack, a)` whenever
`a ≥ last_ack`, but moves the watermark down when `a < last_ack` — and removes
from `pending` exactly the entries with `id ≤ a`. -/
theorem process_ack_semantics (st : FileState) (d : String) (a : Int)
    (dev : DeviceState) (h : st.getDev d = some dev) :
    (st.process_ack d a).getDev d
      = some { pending := dev.pending.filter (fun c => a < c.id),
               last_ack := a, cmd_counter := dev.cmd_counter }
    ∧ (st.process_ack d a).get_last_ack d = a
    ∧ (dev.last_ack ≤ a →
        (st.process_ack d a).get_last_ack d = max (st.get_last_ack d) a) := by
  have h1 := getDev_ack_self st d a
  rw [h] at h1
  simp only [Option.map_some'] at h1
  refine ⟨h1, ?_, ?_⟩
  · simp [FileState.get_last_ack, h1]
  · intro hle
    simp [FileState.get_last_ack, h1, h]
    omega

/-- C1 witness: the theorem evaluated on a concrete device state. -/
theorem process_ack_semantics_witness :
    ((FileState.mk [("d", ⟨[⟨1, "x", none⟩, ⟨2, "y", none⟩], 0, 2⟩)]).process_ack "d" 1).getDev "d"
      = some { pending := ([⟨1, "x", none⟩, ⟨2, "y", none⟩] :
                 List Command).filter (fun c => 1 < c.id),
               last_ack := 1, cmd_counter := 2 }
    ∧ ((FileState.mk [("d", ⟨[⟨1, "x", none⟩, ⟨2, "y", none⟩], 0, 2⟩)]).process_ack "d" 1).get_last_ack "d" = 1
    ∧ ((0 : Int) ≤ 1 →
        ((FileState.mk [("d", ⟨[⟨1, "x", none⟩, ⟨2, "y", none⟩], 0, 2⟩)]).process_ack "d" 1).get_last_ack "d"
          = max ((FileState.mk [("d", ⟨[⟨1, "x", none⟩, ⟨2, "y", none⟩], 0, 2⟩)]).get_last_ack "d") 1) :=
  process_ack_semantics (FileState.mk [("d", ⟨[⟨1, "x", none⟩, ⟨2, "y", none⟩], 0, 2⟩)])
    "d" 1 ⟨[⟨1, "x", none⟩, ⟨2, "y", none⟩], 0, 2⟩ rfl

/-- C1 counterexample: with `last_ack = 5`, an ack of 3 drops the watermark to 3,
so `process_ack` does not set `last_ack := max(last_ack, a)` and the watermark
does decrease. -/
theorem process_ack_watermark_cex :
    ((FileState.mk [("d", ⟨[], 5, 5⟩)]).process_ack "d" 3).get_last_ack "d"
      ≠ max ((FileState.mk [("d", ⟨[], 5, 5⟩)]).get_last_ack "d") 3 := by
  decide

/-- C2 (amended): starting from the empty backend, after any trace of
`register_connection` / `enqueue_command` / `process_ack` operations in which
every ack value is at most the acked device's current `cmd_counter` (acks refer
only to issued ids), every registered device satisfies
`last_ack ≤ cmd_counter` and every pending command id is strictly above
`last_ack`. -/
theorem state_invariant_ack_bounded (ops : List Op)
    (hb : ackBoundedB FileState.empty ops = true) :
    ∀ d ds, (runOps FileState.empty ops).getDev d = some ds →
      ds.last_ack ≤ ds.cmd_counter ∧ ∀ c ∈ ds.pending, ds.last_ack < c.id :=
  fun d ds hds => stateAck_runOps ops FileState.empty stateAck_empty hb d ds hds

/-- C2 witness: the invariant evaluated after a concrete bounded trace. -/
theorem state_invariant_ack_bounded_witness :
    ackBoundedB FileState.empty [.register "d", .enqueue "d" "x" none, .ack "d" 1] = true
    ∧ ((runOps FileState.empty [.register "d", .enqueue "d" "x" none, .ack "d" 1]).getDev "d"
        = some ⟨[], 1, 1⟩)
    ∧ ((⟨[], 1, 1⟩ : DeviceState).last_ack ≤ (⟨[], 1, 1⟩ : DeviceState).cmd_counter
        ∧ ∀ c ∈ (⟨[], 1, 1⟩ : DeviceState).pending, (⟨[], 1, 1⟩ : DeviceState).last_ack < c.id) :=
  ⟨rfl, rfl,
    state_invariant_ack_bounded [.register "d", .enqueue "d" "x" none, .ack "d" 1]
      rfl "d" ⟨[], 1, 1⟩ rfl⟩

/-- C2 counterexample: with an arbitrary (unissued) ack value the invariant
fails — enqueue (id 1), ack 5, enqueue (id 2) leaves `last_ack = 5 > cmd_counter
= 2` and a pending command with `id = 2 ≤ 5`. -/
theorem state_invariant_ack_bounded_cex :
    ¬ (∀ d ds,
        (runOps FileState.empty
            [.enqueue "d" "x" none, .ack "d" 5, .enqueue "d" "y" none]).getDev d = some ds →
        ds.last_ack ≤ ds.cmd_counter ∧ ∀ c ∈ ds.pending, ds.last_ack < c.id) := by
  intro h
  have hd : (runOps FileState.empty
      [.enqueue "d" "x" none, .ack "d" 5, .enqueue "d" "y" none]).getDev "d"
      = some ⟨[⟨2, "y", none⟩], 5, 2⟩ := rfl
  exact absurd (h "d" ⟨[⟨2, "y", none⟩], 5, 2⟩ hd).1 (by decide)

/-- C10: `process_ack` on a device id with no in-memory state returns `Ok`,
creates no device entry, leaves the whole backend unchanged, and a subsequent
`get_last_ack` still returns 0. -/
theorem process_ack_unknown_device (st : FileState) (d : String) (a : Int)
    (h : st.getDev d = none) :
    st.process_ackR d a = .ok st
    ∧ st.process_ack d a = st
    ∧ (st.process_ack d a).get_last_ack d = 0 := by
  have he := process_ack_absent st d a h
  refine ⟨?_, he, ?_⟩
  · simp [FileState.process_ackR, he]
  · rw [he]
    simp [FileState.get_last_ack, h]

/-- C10 witness: the theorem evaluated on a backend that only knows device `e`. -/
theorem process_ack_unknown_device_witness :
    (FileState.mk [("e", ⟨[], 0, 3⟩)]).getDev "d" = none
    ∧ ((FileState.mk [("e", ⟨[], 0, 3⟩)]).process_ackR "d" 9
        = .ok (FileState.mk [("e", ⟨[], 0, 3⟩)])
      ∧ (FileState.mk [("e", ⟨[], 0, 3⟩)]).process_ack "d" 9 = FileState.mk [("e", ⟨[], 0, 3⟩)]
      ∧ ((FileState.mk [("e", ⟨[], 0, 3⟩)]).process_ack "d" 9).get_last_ack "d" = 0) :=
  ⟨rfl, process_ack_unknown_device (FileState.mk [("e", ⟨[], 0, 3⟩)]) "d" 9 rfl⟩

/-- Helper for C3: on every state reachable from the empty backend, the pending
queue of every device is strictly ascending in id. -/
theorem pendingOf_reachable_pairwise (ops : List Op) (d : String) :
    ((runOps FileState.empty ops).pendingOf d).Pairwise (fun c1 c2 => c1.id < c2.id) :=
  pendingOf_pairwise _ (stateGood_runOps ops FileState.empty stateGood_empty) d

/-- C3: on a phone (re)connection for device `d` declaring client last_ack `A`
against any reachable backend state, the `auth_ok` frame carries
`resume_from = max(A, server last_ack)`, and the commands replayed right after
it are exactly the pending commands with `id > A`, in ascending id order. -/
theorem phone_connect_resume_replay (ops : List Op) (d : String) (clientAck : Int) :
    (phoneConnect (runOps FileState.empty ops) d clientAck).1
        = authOk (max clientAck ((runOps FileState.empty ops).get_last_ack d))
    ∧ (phoneConnect (runOps FileState.empty ops) d clientAck).2.1
        = ((runOps FileState.empty ops).pendingOf d).filter (fun c => clientAck < c.id)
    ∧ ((phoneConnect (runOps FileState.empty ops) d clientAck).2.1).Pairwise
        (fun c1 c2 => c1.id < c2.id) := by
  refine ⟨?_, ?_, ?_⟩
  · simp [phoneConnect, get_last_ack_register]
  · simp [phoneConnect, get_pending_register]
  · have hp := pendingOf_reachable_pairwise ops d
    simp only [phoneConnect, get_pending_register]
    exact hp.sublist (List.filter_sublist _)

/-- Helper for C4: the ids assigned by consecutive enqueues on one device count
up by exactly 1 from the initial counter value. -/
theorem enqueueIds_spec (inputs : List (String × Option Json)) :
    ∀ (st : FileState) (d : String),
      enqueueIds st d inputs
        = (List.range inputs.length).map (fun k : Nat => st.counterOf d + 1 + (k : Int)) := by
  induction inputs with
  | nil => intro st d; simp [enqueueIds]
  | cons head tl ih =>
    intro st d
    obtain ⟨c, p⟩ := head
    simp only [enqueueIds]
    rw [enqueue_fst, ih, counterOf_enqueue_self, List.length_cons,
      List.range_succ_eq_map, List.map_cons, List.map_map]
    congr 1
    · simp
    · refine List.map_congr_left ?_
      intro k _
      simp only [Function.comp_apply]
      push_cast
      ring

/-- C4: `enqueue_command` always succeeds: it allocates `cmd_counter + 1` as the
new id, appends the complete record to `pending`, and returns it; consecutive
enqueues on one device assign ids increasing strictly by 1 from the initial
counter; and when `|pending| ≥ 50` the warning flag is raised but the command is
still enqueued and returned (warn only, never rejected or dropped). -/
theorem enqueue_command_spec (st : FileState) (d cmd : String) (params : Option Json)
    (inputs : List (String × Option Json)) :
    (st.enqueue_command d cmd params).1
        = { id := st.counterOf d + 1, cmd := cmd, params := params }
    ∧ (st.enqueue_command d cmd params).2.2.pendingOf d
        = st.pendingOf d ++ [{ id := st.counterOf d + 1, cmd := cmd, params := params }]
    ∧ (st.enqueue_command d cmd params).2.2.counterOf d = st.counterOf d + 1
    ∧ (st.enqueue_command d cmd params).2.1 = decide (50 ≤ (st.pendingOf d).length)
    ∧ enqueueIds st d inputs
        = (List.range inputs.length).map (fun k : Nat => st.counterOf d + 1 + (k : Int)) :=
  ⟨enqueue_fst st d cmd params, pendingOf_enqueue_self st d cmd params,
    counterOf_enqueue_self st d cmd params, enqueue_warned st d cmd params,
    enqueueIds_spec inputs st d⟩

/-- C5 (amended): `send_to_phone` returns true exactly when the message is
enqueued on the registered phone's outbound channel; it returns false when no
phone sender is registered or the channel is closed; but when the bounded
channel is full and open, the `send(...).await` call suspends until the device
frees capacity — it does not return false. -/
theorem send_to_phone_semantics (phones : List (String × Chan String)) (d m : String) :
    (lookupPhone phones d = none → sendToPhone phones d m = (.ret false, phones))
    ∧ (∀ ch, lookupPhone phones d = some ch → ch.closed = true →
        sendToPhone phones d m = (.ret false, phones))
    ∧ (∀ ch, lookupPhone phones d = some ch → ch.closed = false →
        ch.queue.length < chanCapacity →
        sendToPhone phones d m
          = (.ret true, setPhone phones d { queue := ch.queue ++ [m], closed := false }))
    ∧ (∀ ch, lookupPhone phones d = some ch → ch.closed = false →
        chanCapacity ≤ ch.queue.length → (sendToPhone phones d m).1 = .waits) := by
  refine ⟨?_, ?_, ?_, ?_⟩
  · intro h
    simp [sendToPhone, h]
  · intro ch h hc
    simp [sendToPhone, h, hc]
  · intro ch h hc hlen
    obtain ⟨q, cl⟩ := ch
    simp only at hc
    subst hc
    simp [sendToPhone, h, hlen]
  · intro ch h hc hlen
    simp [sendToPhone, h, hc, Nat.not_lt.mpr hlen]

/-- C5 witness: delivery into an open channel with free capacity. -/
theorem send_to_phone_semantics_witness :
    sendToPhone [("d", ⟨[], false⟩)] "d" "x"
      = (.ret true,
         setPhone [("d", ⟨[], false⟩)] "d" { queue := ([] : List String) ++ ["x"], closed := false }) :=
  (send_to_phone_semantics [("d", ⟨[], false⟩)] "d" "x").2.2.1 ⟨[], false⟩ rfl rfl (by decide)

/-- C5 counterexample: with a full open channel (64 queued messages) the send
suspends (`waits`); it is not an immediate `false` as the claim states. -/
theorem send_to_phone_full_cex :
    (sendToPhone [("d", ⟨List.replicate chanCapacity "m", false⟩)] "d" "x").1 = .waits
    ∧ (sendToPhone [("d", ⟨List.replicate chanCapacity "m", false⟩)] "d" "x").1
        ≠ .ret false := by
  decide

/-- Helper for C6: a component absent from the matrix passes the loop. -/
theorem checkVersionAux_not_mem (v : ClientVersion) (L : List (String × Nat × Nat))
    (h : ∀ r ∈ L, r.1 ≠ v.component) : checkVersionAux v L = .ok () := by
  induction L with
  | nil => rfl
  | cons r rest ih =>
    obtain ⟨c, lo, hi⟩ := r
    have hc : c ≠ v.component := h (c, lo, hi) (by simp)
    simp only [checkVersionAux, if_neg hc]
    exact ih (fun r hr => h r (by simp [hr]))

/-- Helper for C6: for a matrix with pairwise-distinct components, a listed
component passes iff its major version lies in the row's inclusive range. -/
theorem checkVersionAux_mem (v : ClientVersion) (L : List (String × Nat × Nat))
    (lo hi : Nat) (hnd : (L.map (fun r => r.1)).Nodup)
    (hmem : (v.component, lo, hi) ∈ L) :
    (checkVersionAux v L = .ok () ↔ lo ≤ v.major ∧ v.major ≤ hi) := by
  induction L with
  | nil => simp at hmem
  | cons r rest ih =>
    obtain ⟨c, lo2, hi2⟩ := r
    rcases List.mem_cons.mp hmem with heq | htail
    · injection heq with h1 h2
      injection h2 with h3 h4
      subst h1
      subst h3
      subst h4
      have hstep : checkVersionAux v ((v.component, lo, hi) :: rest)
          = if v.major < lo then .error (outdatedMsg v lo)
            else if hi < v.major then .error (tooNewMsg v hi) else .ok () := by
        simp [checkVersionAux]
      rw [hstep]
      split_ifs with hlt hgt
      · exact iff_of_false (by simp) (by omega)
      · exact iff_of_false (by simp) (by omega)
      · exact iff_of_true rfl (by omega)
    · have hvc : v.component ∈ rest.map (fun r => r.1) :=
        List.mem_map.mpr ⟨(v.component, lo, hi), htail, rfl⟩
      have hcnot := (List.nodup_cons.mp hnd).1
      have hc : c ≠ v.component := by
        intro hceq
        rw [hceq] at hcnot
        exact hcnot hvc
      simp only [checkVersionAux, if_neg hc]
      exact ih (List.nodup_cons.mp hnd).2 htail

/-- C6: `check_version_compatible` accepts every version whose component is not
listed in the matrix; for a listed component it accepts iff
`min_major ≤ major ≤ max_major`; and a phone authenticating as android v0.9
against matrix row ("android", 1, 1) is rejected with the exact
`outdated_client` error frame (with its update_url) and the connection closed. -/
theorem version_gate_spec :
    (∀ v : ClientVersion, (∀ r ∈ COMPATIBILITY, r.1 ≠ v.component) →
        check_version_compatible v = .ok ())
    ∧ (∀ (v : ClientVersion) (lo hi : Nat), (v.component, lo, hi) ∈ COMPATIBILITY →
        (check_version_compatible v = .ok () ↔ lo ≤ v.major ∧ v.major ≤ hi))
    ∧ versionGate (some { major := 0, minor := 9, component := "android" })
        = .rejectAndClose
            { msg_type := "error", code := "outdated_client",
              message := "Your android (v0.9) is outdated. Please update to version 1.x or later.",
              update_url := "https://screenmcp.com/download" } := by
  refine ⟨?_, ?_, by decide⟩
  · intro v h
    exact checkVersionAux_not_mem v COMPATIBILITY h
  · intro v lo hi hmem
    exact checkVersionAux_mem v COMPATIBILITY lo hi (by decide) hmem

/-- C6 witness: an unlisted component passes, and the listed-row criterion
evaluated at android major 2 against row (1, 1). -/
theorem version_gate_spec_witness :
    check_version_compatible { major := 3, minor := 0, component := "webapp" } = .ok ()
    ∧ (check_version_compatible { major := 2, minor := 0, component := "android" } = .ok ()
        ↔ 1 ≤ 2 ∧ 2 ≤ 1) :=
  ⟨version_gate_spec.1 { major := 3, minor := 0, component := "webapp" } (by decide),
   version_gate_spec.2.1 { major := 2, minor := 0, component := "android" } 1 1 (by decide)⟩

/-- C7: an empty allowlist admits every client IP; an entry whose parse fails
(in particular a CIDR whose prefix exceeds 32 for v4 / 128 for v6) is dropped
without making allowlist construction fail; and for the allowlist text
"10.0.0.0/8\n192.168.1.5", 10.5.5.5 and 192.168.1.5 are admitted while 8.8.8.8
is rejected, which the connection handler turns into an `auth_fail` frame. -/
theorem ip_whitelist_spec :
    (∀ wl : IpWhitelist, wl.entries = [] → ∀ ip, wl.check ip = .ok ())
    ∧ (∀ (s : String) (items : List String) (e : String),
        IpEntry.parse (String.mk (trimL s.data)) = .error e →
        IpWhitelist.from_list (s :: items) = IpWhitelist.from_list items)
    ∧ (∀ (s : String) (addrStr : List Char) (rest : List (List Char))
        (addr : IpAddrM) (p : Nat),
        splitOnCharL '/' (trimL s.data) = addrStr :: rest → rest ≠ [] →
        parseIpAddr (String.mk addrStr) = some addr →
        parseU8 ((rest.intersperse ['/']).flatten) = some p →
        (match addr with | .v4 _ => 32 | .v6 _ => 128) < p →
        IpEntry.parse s = .error ("prefix too large: " ++ String.mk (trimL s.data)))
    ∧ ((IpWhitelist.from_text "10.0.0.0/8\n192.168.1.5").check "10.5.5.5" = .ok ()
        ∧ (IpWhitelist.from_text "10.0.0.0/8\n192.168.1.5").check "192.168.1.5" = .ok ()
        ∧ (IpWhitelist.from_text "10.0.0.0/8\n192.168.1.5").check "8.8.8.8"
            = .error "IP not in whitelist"
        ∧ ipGate "10.0.0.0/8\n192.168.1.5" "8.8.8.8"
            = some { msg_type := "auth_fail",
                     error := "connection from this IP is not allowed" }
        ∧ ipGate "10.0.0.0/8\n192.168.1.5" "10.5.5.5" = none) := by
  refine ⟨?_, ?_, ?_, by decide⟩
  · intro wl h ip
    simp [IpWhitelist.check, h]
  · intro s items e hp
    simp only [IpWhitelist.from_list, List.filterMap_cons]
    by_cases ht : trimL s.data = []
    · simp [ht]
    · simp [ht, hp, Except.toOption]
  · intro s addrStr rest addr p hsplit hne haddr hpfx hlt
    obtain ⟨r, rs, hr⟩ := List.exists_cons_of_ne_nil hne
    subst hr
    cases addr with
    | v4 bits =>
      simp only [IpEntry.parse, hsplit, haddr, hpfx]
      simp at hlt
      simp [hlt]
    | v6 bits =>
      simp only [IpEntry.parse, hsplit, haddr, hpfx]
      simp at hlt
      simp [hlt]

/-- C7 witness: a malformed entry and over-large v4/v6 prefixes are dropped, and
an empty allowlist admits an arbitrary IP. -/
theorem ip_whitelist_spec_witness :
    IpWhitelist.from_list ("999.9.9.9" :: ["10.0.0.0/8"]) = IpWhitelist.from_list ["10.0.0.0/8"]
    ∧ IpEntry.parse "10.0.0.0/33"
        = .error ("prefix too large: " ++ String.mk (trimL "10.0.0.0/33".data))
    ∧ IpEntry.parse "::1/129"
        = .error ("prefix too large: " ++ String.mk (trimL "::1/129".data))
    ∧ (IpWhitelist.mk []).check "8.8.8.8" = .ok () :=
  ⟨ip_whitelist_spec.2.1 "999.9.9.9" ["10.0.0.0/8"] "invalid IP: 999.9.9.9" (by decide),
   ip_whitelist_spec.2.2.1 "10.0.0.0/33" "10.0.0.0".data ["33".data] (.v4 0x0A000000) 33
     (by decide) (by decide) (by decide) (by decide) (by decide),
   ip_whitelist_spec.2.2.1 "::1/129" "::1".data ["129".data] (.v6 1) 129
     (by decide) (by decide) (by decide) (by decide) (by decide),
   ip_whitelist_spec.1 (IpWhitelist.mk []) rfl "8.8.8.8"⟩

/-- C8: when the usage backend answers `LimitReached` for a controller command,
the worker sends the controller exactly one error frame, the per-device state is
untouched (no id allocated, pending unchanged), and the session loop continues —
a later allowed command is enqueued normally and acknowledged with
`cmd_accepted` carrying the next id. -/
theorem usage_limit_step (st : FileState) (target cmd cmd2 : String)
    (params params2 : Option Json) (current limit : Int) :
    controllerCommandStep (.limitReached current limit) st target cmd params
      = ([.errorFrame (limitMsg current limit)], st, true)
    ∧ (controllerCommandStep .allowed st target cmd2 params2).1
        = [.cmdAccepted (st.counterOf target + 1)]
    ∧ (controllerCommandStep .allowed st target cmd2 params2).2.1.pendingOf target
        = st.pendingOf target
            ++ [{ id := st.counterOf target + 1, cmd := cmd2, params := params2 }] := by
  refine ⟨rfl, ?_, ?_⟩
  · simp [controllerCommandStep, enqueue_fst]
  · simp [controllerCommandStep, pendingOf_enqueue_self]

/-- C9 (amended): POST /notify answers 401 (and forwards nothing) when a notify
secret is configured and the bearer does not match; with the secret check
passing and a valid JSON body carrying a non-empty `device_id`, the event —
stamped with a timestamp when the body lacks one — is forwarded iff the
registered SSE channel is open and below capacity (200 `{"ok":true}`); with no
SSE client registered, or a registered channel that is closed or full
(`try_send` failure), the response is 404 `{"error":"device not connected"}`. -/
theorem notify_semantics (secret authHeader : Option String) (body : Option Json)
    (sse : List (String × Chan Json)) (now : Int) :
    (∀ s, secret = some s → authHeader.bind bearerOf ≠ some s →
        handleNotify secret authHeader body sse now
          = (⟨401, "\x7b\"error\":\"unauthorized\"\x7d"⟩, sse))
    ∧ (∀ parsed rawId, notifyAuthOk secret authHeader → body = some parsed →
        (parsed.getField "device_id").bind Json.asStr = some rawId → rawId ≠ "" →
        ((lookupSse sse (stripHyphens rawId) = none →
            handleNotify secret authHeader body sse now
              = (⟨404, "\x7b\"error\":\"device not connected\"\x7d"⟩, sse))
        ∧ (∀ ch, lookupSse sse (stripHyphens rawId) = some ch → ch.closed = false →
            ch.queue.length < chanCapacity →
            handleNotify secret authHeader body sse now
              = (⟨200, "\x7b\"ok\":true\x7d"⟩,
                 setSse sse (stripHyphens rawId)
                   { queue := ch.queue ++ [stampTimestamp parsed now], closed := false }))
        ∧ (∀ ch, lookupSse sse (stripHyphens rawId) = some ch →
            (ch.closed = true ∨ chanCapacity ≤ ch.queue.length) →
            handleNotify secret authHeader body sse now
              = (⟨404, "\x7b\"error\":\"device not connected\"\x7d"⟩, sse)))) := by
  constructor
  · intro s hs hne
    subst hs
    simp only [handleNotify]
    cases hab : authHeader.bind bearerOf with
    | none => rfl
    | some t =>
      have ht : ¬ t = s := fun h => hne (h ▸ hab)
      simp [ht]
  · intro parsed rawId hauth hbody hdev hne
    subst hbody
    have hbypass : handleNotify secret authHeader (some parsed) sse now
        = notifyBody (some parsed) sse now := by
      cases secret with
      | none => rfl
      | some s =>
        have := hauth s rfl
        simp [handleNotify, this]
    rw [hbypass]
    simp only [notifyBody, hdev, Option.bind_some]
    rw [if_neg hne]
    refine ⟨?_, ?_, ?_⟩
    · intro hlk
      simp [sendSseEvent, hlk]
    · intro ch hlk hcl hlen
      obtain ⟨q, cl⟩ := ch
      simp only at hcl
      subst hcl
      simp [sendSseEvent, hlk, hlen, stampTimestamp]
    · intro ch hlk hfull
      have : ¬ (ch.closed = false ∧ ch.queue.length < chanCapacity) := by
        rcases hfull with h | h
        · intro hcon; rw [h] at hcon; exact absurd hcon.1 (by simp)
        · intro hcon; omega
      simp [sendSseEvent, hlk, this]

/-- C9 witness: matching secret, hyphenated device id, missing timestamp, open
SSE channel — the stamped event is delivered and the response is 200. -/
theorem notify_semantics_witness :
    handleNotify (some "s") (some "Bearer s") (some (.obj [("device_id", .str "d-1")]))
        [("d1", ⟨[], false⟩)] 42
      = (⟨200, "\x7b\"ok\":true\x7d"⟩,
         setSse [("d1", ⟨[], false⟩)] (stripHyphens "d-1")
           { queue := [] ++ [stampTimestamp (.obj [("device_id", .str "d-1")]) 42],
             closed := false }) :=
  ((notify_semantics (some "s") (some "Bearer s")
      (some (.obj [("device_id", .str "d-1")])) [("d1", ⟨[], false⟩)] 42).2
    (.obj [("device_id", .str "d-1")]) "d-1"
    (fun s hs => by cases hs; rfl) rfl rfl (by decide)).2.1
    ⟨[], false⟩ rfl rfl (by decide)

/-- C9 counterexample: an SSE client is registered for the device, yet the
response is 404 because the channel is full (`try_send` fails), contradicting
the claim that a registered client always yields 200 with the event forwarded. -/
theorem notify_registered_full_cex :
    (lookupSse [("d", ⟨List.replicate chanCapacity Json.null, false⟩)] "d").isSome = true
    ∧ (handleNotify none none (some (.obj [("device_id", .str "d")]))
        [("d", ⟨List.replicate chanCapacity Json.null, false⟩)] 7).1
      = { status := 404, body := "\x7b\"error\":\"device not connected\"\x7d" } :=
  ⟨rfl, rfl⟩

end ScreenMcp
